import Mathlib

/-!
Verification development for the S2 Kerr-geodesic script (`s2.py`).

The script integrates the orbit of the star S2 around a Kerr black hole and
shoots light rays past it.  This file gives a shallow embedding over the
reals of the pieces of `s2.py` that the verified properties are about:

* the Boyer-Lindquist/Cartesian coordinate conversions (`s2.py` lines
  135-145 and 195-199),
* the radial-momentum extremum analysis producing the orbital period,
  precession phase and semi-major axis (`s2.py` lines 209-222),
* the construction of the initial light ray and the closest-approach loop
  inside `minimum_distance` (`s2.py` lines 233-292),
* the `Closest Ray` printout (`s2.py` lines 304-306).

Python floats are embedded as real numbers.  The external adaptive ODE
solver (`scipy.integrate.odeint`) is not part of the repository; functions
that consume its output take the sampled trajectory as an explicit list
parameter.  Helper modules `utils.py`, `deriv_funcs_massive.py` and
`deriv_funcs_light.py` are part of the project but their sources are not
available here; the definitions taken from them are modelled from the
specification and are marked as such in their doc comments.
-/

noncomputable section

namespace S2

/-- Two-argument arctangent with `numpy.arctan2` semantics (range `(-pi, pi]`
up to the convention at the negative real axis), realised as the argument of
the complex number `x + y*I`. -/
def arctan2 (y x : ℝ) : ℝ := Complex.arg (x + y * Complex.I)

/-- Black-hole spin, `a = 0.99` (`s2.py` line 24). -/
def a : ℝ := 0.99

/-- Azimuth of the spin axis in the observer frame (`s2.py` line 95). -/
def spin_phi : ℝ := 0

/-- Polar angle of the spin axis in the observer frame (`s2.py` line 96). -/
def spin_theta : ℝ := 0

/-- Rotation about the z axis by the spin azimuth (`s2.py` lines 98-100). -/
def R_spin_phi : Matrix (Fin 3) (Fin 3) ℝ :=
  !![Real.cos spin_phi, Real.sin spin_phi, 0;
     -Real.sin spin_phi, Real.cos spin_phi, 0;
     0, 0, 1]

/-- Rotation taking the observer z axis onto the (negated) spin axis
(`s2.py` lines 102-104). -/
def R_spin_theta : Matrix (Fin 3) (Fin 3) ℝ :=
  !![-Real.cos spin_theta, 0, Real.sin spin_theta;
     0, 1, 0;
     -Real.sin spin_theta, 0, -Real.cos spin_theta]

/-- Observer frame to black-hole frame rotation (`s2.py` line 107). -/
def bh_from_obs : Matrix (Fin 3) (Fin 3) ℝ := R_spin_theta * R_spin_phi

/-- Black-hole frame to observer frame rotation: the transpose, as the
matrix is orthogonal (`s2.py` line 108). -/
def obs_from_bh : Matrix (Fin 3) (Fin 3) ℝ := bh_from_obs.transpose

/-- The auxiliary quantity `a_xyz = a^2 - x^2 - y^2 - z^2` of the inverse
Boyer-Lindquist transform (`s2.py` line 137). -/
def a_xyz (aa x y z : ℝ) : ℝ := aa * aa - x * x - y * y - z * z

/-- Boyer-Lindquist radius of a Cartesian point in the black-hole frame
(`s2.py` line 138; also `utils.xyz_to_bl`). -/
def r_of_xyz (aa x y z : ℝ) : ℝ :=
  Real.sqrt (-0.5 * a_xyz aa x y z +
    0.5 * Real.sqrt (a_xyz aa x y z * a_xyz aa x y z + 4 * aa * aa * z * z))

/-- Boyer-Lindquist polar angle of a Cartesian point (`s2.py` line 140). -/
def theta_of_xyz (aa x y z : ℝ) : ℝ := Real.arccos (z / r_of_xyz aa x y z)

/-- Full inverse transform, Cartesian (black-hole frame) to Boyer-Lindquist
`(r, theta, phi)` (`s2.py` lines 135-140; `utils.xyz_to_bl`). -/
def xyz_to_bl (aa : ℝ) (v : Fin 3 → ℝ) : Fin 3 → ℝ :=
  ![r_of_xyz aa (v 0) (v 1) (v 2),
    theta_of_xyz aa (v 0) (v 1) (v 2),
    arctan2 (v 1) (v 0)]

/-- Forward transform, Boyer-Lindquist to Cartesian in the black-hole frame:
`x = sqrt(r^2+a^2) sin(theta) cos(phi)` and so on (`s2.py` lines 143-145,
applied per trajectory sample at lines 195-199 and 278-282). -/
def bl_to_xyz (aa r th ph : ℝ) : Fin 3 → ℝ :=
  ![Real.sqrt (r * r + aa * aa) * Real.sin th * Real.cos ph,
    Real.sqrt (r * r + aa * aa) * Real.sin th * Real.sin ph,
    r * Real.cos th]

/-- Modelled from the spec: recursion core of `utils.maxima` (module
`utils.py` is not under `src/`).  Spec 4.7 prescribes discrete local-maximum
detection by a sign change of the finite difference of the sequence: index
`i` is reported when the predecessor is smaller and the successor is smaller
than the value at `i`. -/
def maximaAux : ℝ → List ℝ → ℕ → List ℕ
  | prev, x :: y :: rest, i =>
      if prev < x ∧ y < x then i :: maximaAux x (y :: rest) (i + 1)
      else maximaAux x (y :: rest) (i + 1)
  | _, _, _ => []

/-- Modelled from the spec: `utils.maxima`, the indices of the discrete
local maxima of a sampled sequence (spec 4.7). -/
def maxima : List ℝ → List ℕ
  | x :: rest => maximaAux x rest 1
  | [] => []

/-- Modelled from the spec: recursion core of `utils.minima`, dual to
`maximaAux`. -/
def minimaAux : ℝ → List ℝ → ℕ → List ℕ
  | prev, x :: y :: rest, i =>
      if x < prev ∧ x < y then i :: minimaAux x (y :: rest) (i + 1)
      else minimaAux x (y :: rest) (i + 1)
  | _, _, _ => []

/-- Modelled from the spec: `utils.minima`, the indices of the discrete
local minima of a sampled sequence (spec 4.7). -/
def minima : List ℝ → List ℕ
  | x :: rest => minimaAux x rest 1
  | [] => []

/-- Orbital period extracted from the trajectory: `t[imaxs][1] - t[imaxs][0]`
(`s2.py` line 218) with `imaxs = maxima(pr)` (line 213).  The Python
expression indexes eagerly; a missing index is an uncaught numpy
`IndexError`, modelled here by `none`. -/
def simul_period? (t pr : List ℝ) : Option ℝ := do
  let imaxs := maxima pr
  let i1 ← imaxs.get? 1
  let i0 ← imaxs.get? 0
  let t1 ← t.get? i1
  let t0 ← t.get? i0
  pure (t1 - t0)

/-- Precession phase: `phase[imaxs][1] + pi` where
`phase = arctan2(orbit_orb[:,1], orbit_orb[:,0])` (`s2.py` lines 216, 221).
A missing second maximum is an uncaught numpy `IndexError`, modelled by
`none`. -/
def deltaphase? (pr : List ℝ) (orb : List (Fin 3 → ℝ)) : Option ℝ := do
  let i1 ← (maxima pr).get? 1
  let p ← orb.get? i1
  pure (arctan2 (p 1) (p 0) + Real.pi)

/-- Semi-major axis estimate:
`(orbit_orb[imins, 0][0] - orbit_orb[imaxs, 0][0]) / 2` (`s2.py` line 219) -
half the difference of the first (x) orbital-plane coordinates at the first
detected minimum and maximum of `p_r`. -/
def simul_sma? (pr : List ℝ) (orb : List (Fin 3 → ℝ)) : Option ℝ := do
  let imin ← (minima pr).get? 0
  let imax ← (maxima pr).get? 0
  let pm ← orb.get? imin
  let pM ← orb.get? imax
  pure ((pm 0 - pM 0) / 2)

/-- Value described by the specification for the semi-major axis: half the
Euclidean distance between the first-periapsis and first-apoapsis positions
in orbital-plane coordinates (spec 4.7).  Stated from the spec's words, for
comparison with `simul_sma?`. -/
def half_peri_apo_dist? (pr : List ℝ) (orb : List (Fin 3 → ℝ)) : Option ℝ := do
  let imin ← (minima pr).get? 0
  let imax ← (maxima pr).get? 0
  let pm ← orb.get? imin
  let pM ← orb.get? imax
  pure (Real.sqrt ((pm 0 - pM 0) ^ 2 + (pm 1 - pM 1) ^ 2 + (pm 2 - pM 2) ^ 2) / 2)

/-- Quadratic form of a metric on a 4-vector, `(metric0 @ u) @ u`
(`s2.py` line 168). -/
def qform (g : Matrix (Fin 4) (Fin 4) ℝ) (u : Fin 4 → ℝ) : ℝ :=
  Matrix.dotProduct (g.mulVec u) u

/-- Proper-time rescaling factor `dt_dtau = 1/sqrt(-(metric0 @ u) @ u)`
(`s2.py` line 168). -/
def dt_dtau (g : Matrix (Fin 4) (Fin 4) ℝ) (u : Fin 4 → ℝ) : ℝ :=
  1 / Real.sqrt (-(qform g u))

/-- Contravariant 4-momentum `_p = dt_dtau * _u_dt` (`s2.py` line 170). -/
def p_vec (g : Matrix (Fin 4) (Fin 4) ℝ) (u : Fin 4 → ℝ) : Fin 4 → ℝ :=
  fun i => dt_dtau g u * u i

/-- Ray start distance `z_inf = 100000` inside `minimum_distance`
(`s2.py` line 235). -/
def z_inf : ℝ := 100000

/-- Initial Cartesian ray position in the black-hole frame,
`xyz0 = bh_from_obs @ [x, y, z_inf]` (`s2.py` line 237). -/
def md_xyz0 (x y : ℝ) : Fin 3 → ℝ := bh_from_obs.mulVec ![x, y, z_inf]

/-- Initial ray direction in the black-hole frame,
`_v0 = bh_from_obs @ [0, 0, 1]` (`s2.py` line 245). -/
def md_v0 : Fin 3 → ℝ := bh_from_obs.mulVec ![0, 0, 1]

/-- The 3x3 direction-to-momentum matrix of `minimum_distance`
(`s2.py` lines 247-251); the same Jacobian as at lines 157-161. -/
def md_mat (aa r0 th0 x0 y0 z0 : ℝ) : Matrix (Fin 3) (Fin 3) ℝ :=
  !![r0 * x0 / (r0 * r0 + aa * aa), -x0 * Real.tan (th0 - Real.pi / 2), -y0;
     r0 * y0 / (r0 * r0 + aa * aa), -y0 * Real.tan (th0 - Real.pi / 2), x0;
     z0 / r0, -r0 * Real.sin th0, 0]

/-- The matrix `mat` as `minimum_distance` builds it from the sky offset
`(x, y)`: positions from `md_xyz0` and Boyer-Lindquist angles from
`xyz_to_bl` (`s2.py` lines 237-251). -/
def md_mat_at (aa x y : ℝ) : Matrix (Fin 3) (Fin 3) ℝ :=
  md_mat aa (xyz_to_bl aa (md_xyz0 x y) 0) (xyz_to_bl aa (md_xyz0 x y) 1)
    (md_xyz0 x y 0) (md_xyz0 x y 1) (md_xyz0 x y 2)

/-- Model of `numpy.linalg.solve`: the unique solution when the matrix is
invertible, `none` (the raised `LinAlgError`) when it is singular. -/
def np_solve (M : Matrix (Fin 3) (Fin 3) ℝ) (v : Fin 3 → ℝ) : Option (Fin 3 → ℝ) :=
  if M.det = 0 then none else some (M⁻¹.mulVec v)

/-- Spatial part of the ray momentum after the guarded solve of
`minimum_distance` (`s2.py` lines 258-262): `_p` is preinitialised to zeros,
the `except` branch only prints, so on a singular matrix execution continues
with the zero vector. -/
def md_p_spatial (aa x y : ℝ) : Fin 3 → ℝ :=
  (np_solve (md_mat_at aa x y) md_v0).getD 0

/-- Modelled from the spec: `kerr_Sigma = r^2 + a^2 cos^2 theta`, the
standard Kerr auxiliary scalar (`deriv_funcs_light.rho` squared; module
`deriv_funcs_light.py` is not under `src/`; spec 4.1). -/
def kerr_Sigma (aa r th : ℝ) : ℝ := r * r + aa * aa * Real.cos th * Real.cos th

/-- Horizon/discriminant function `Delta(r) = r^2 - 2r + a^2` with the mass
normalised to 1 (spec 4.1; `deriv_funcs_light.Delta`). -/
def kerr_Delta (aa r : ℝ) : ℝ := r * r - 2 * r + aa * aa

/-- Modelled from the spec: `deriv_funcs_light.metric` (not under `src/`),
the standard covariant Kerr metric in Boyer-Lindquist coordinates, order
`(t, r, theta, phi)`: diagonal `r`, `theta` components, off-diagonal
`t`-`phi` coupling and no other off-diagonal terms (spec 4.1). -/
def metric_l (aa r th : ℝ) : Matrix (Fin 4) (Fin 4) ℝ :=
  !![-(1 - 2 * r / kerr_Sigma aa r th), 0, 0,
       -(2 * aa * r * Real.sin th ^ 2 / kerr_Sigma aa r th);
     0, kerr_Sigma aa r th / kerr_Delta aa r, 0, 0;
     0, 0, kerr_Sigma aa r th, 0;
     -(2 * aa * r * Real.sin th ^ 2 / kerr_Sigma aa r th), 0, 0,
       (r * r + aa * aa + 2 * aa * aa * r * Real.sin th ^ 2 / kerr_Sigma aa r th)
         * Real.sin th ^ 2]

/-- The contravariant ray 4-momentum after the energy normalisation step of
`minimum_distance` (`s2.py` line 265): the time component is set to
`(-1 - _p[2] * metric0[0,2]) / metric0[0,0]`, where `_p[2]` is the second
spatial (theta) component of the solved direction `psp`. -/
def md_p_full (g : Matrix (Fin 4) (Fin 4) ℝ) (psp : Fin 3 → ℝ) : Fin 4 → ℝ :=
  ![(-1 - psp 1 * g 0 2) / g 0 0, psp 0, psp 1, psp 2]

/-- Conserved photon energy of the constructed ray, `E = -p_cov[0]` with
`p_cov = metric0 @ _p` (`s2.py` lines 175 and 267). -/
def md_E (g : Matrix (Fin 4) (Fin 4) ℝ) (psp : Fin 3 → ℝ) : ℝ :=
  -(g.mulVec (md_p_full g psp) 0)

/-- Squared observer-frame distance from one sampled ray state
`[r, theta, phi, p_r, p_theta]` to the target point: the body of the
minimum loop of `minimum_distance` (`s2.py` lines 278-288). -/
def dist_sqr_of (aa : ℝ) (pos : Fin 3 → ℝ) (s : Fin 5 → ℝ) : ℝ :=
  Matrix.dotProduct (obs_from_bh.mulVec (bl_to_xyz aa (s 0) (s 1) (s 2)) - pos)
    (obs_from_bh.mulVec (bl_to_xyz aa (s 0) (s 1) (s 2)) - pos)

/-- Return value of `minimum_distance` as a function of the sampled ray
trajectory delivered by the ODE solver: the running-minimum loop starts from
the sentinel `2 * z_inf * z_inf` (`s2.py` lines 284-292). -/
def minimum_distance_result (aa : ℝ) (pos : Fin 3 → ℝ) (ray : List (Fin 5 → ℝ)) : ℝ :=
  Real.sqrt (ray.foldl (fun acc s => min acc (dist_sqr_of aa pos s)) (2 * z_inf * z_inf))

/-- Value claimed by the specification for `minimum_distance`: the plain
minimum over the sampled points of the Euclidean observer-frame distance to
the target.  Stated from the spec's words, for comparison with
`minimum_distance_result`. -/
def claimedMin (aa : ℝ) (pos : Fin 3 → ℝ) : List (Fin 5 → ℝ) → ℝ
  | [] => 0
  | s :: rest =>
      rest.foldl (fun m s2 => min m (Real.sqrt (dist_sqr_of aa pos s2)))
        (Real.sqrt (dist_sqr_of aa pos s))

/-- Grid width `nx = 25` (`s2.py` line 299). -/
def nx : ℕ := 25

/-- Grid height `ny = 25` (`s2.py` line 300). -/
def ny : ℕ := 25

/-- The zero-initialised distance grid `min_dist = np.zeros((ny, nx))`
(`s2.py` line 304). -/
def min_dist0 : Fin ny → Fin nx → ℝ := fun _ _ => 0

/-- Minimum entry of a grid, `np.min` over a `(ny, nx)` array. -/
def grid_min (g : Fin ny → Fin nx → ℝ) : ℝ :=
  Finset.univ.inf' ⟨(⟨0, by norm_num [ny]⟩, ⟨0, by norm_num [nx]⟩), Finset.mem_univ _⟩
    fun p : Fin ny × Fin nx => g p.1 p.2

/-- The value the script prints as `Closest Ray` (`s2.py` line 306):
`np.min(min_dist)` evaluated on the zero-initialised grid, before the scan
loop (lines 308-313) writes any cell.  The grid-scan results `md_eval` that
the loop would later store therefore cannot influence it. -/
def closest_ray_printed (_md_eval : Fin ny → Fin nx → ℝ) : ℝ := grid_min min_dist0

/-- A concrete far-away sampled ray state, used as input for the sentinel
behaviour of `minimum_distance`. -/
def farRay : Fin 5 → ℝ := ![1000000, Real.pi / 2, 0, 0, 0]

/-! ### Evaluation of the fixed rotation matrices -/

lemma bh_from_obs_eval : bh_from_obs = !![-1, 0, 0; 0, 1, 0; 0, 0, -1] := by
  unfold bh_from_obs R_spin_theta R_spin_phi spin_phi spin_theta
  ext i j
  fin_cases i <;> fin_cases j <;>
    simp [Matrix.mul_apply, Fin.sum_univ_three, Matrix.vecHead, Matrix.vecTail]

lemma obs_from_bh_eval : obs_from_bh = !![-1, 0, 0; 0, 1, 0; 0, 0, -1] := by
  unfold obs_from_bh
  rw [bh_from_obs_eval]
  ext i j
  fin_cases i <;> fin_cases j <;>
    simp [Matrix.transpose_apply, Matrix.vecHead, Matrix.vecTail]

/-! ### Folding with `min`: helper lemmas for the closest-approach loop -/

lemma foldl_min_sqrt {α : Type} (f : α → ℝ) (l : List α) (c : ℝ) :
    Real.sqrt (l.foldl (fun acc s => min acc (f s)) c) =
      l.foldl (fun acc s => min acc (Real.sqrt (f s))) (Real.sqrt c) := by
  have hm : Monotone Real.sqrt := fun x y h => Real.sqrt_le_sqrt h
  induction l generalizing c with
  | nil => rfl
  | cons x xs ih =>
      simp only [List.foldl_cons]
      rw [ih, hm.map_min]

lemma foldl_min_init {α : Type} (g : α → ℝ) (l : List α) (A B : ℝ) :
    l.foldl (fun acc s => min acc (g s)) (min A B) =
      min A (l.foldl (fun acc s => min acc (g s)) B) := by
  induction l generalizing B with
  | nil => rfl
  | cons x xs ih =>
      simp only [List.foldl_cons]
      rw [min_assoc, ih]

lemma foldl_min_le_init {α : Type} (g : α → ℝ) (l : List α) (c : ℝ) :
    l.foldl (fun acc s => min acc (g s)) c ≤ c := by
  induction l generalizing c with
  | nil => exact le_refl c
  | cons x xs ih =>
      simp only [List.foldl_cons]
      exact le_trans (ih _) (min_le_left _ _)

lemma foldl_min_of_ge {α : Type} (g : α → ℝ) (l : List α) (c : ℝ)
    (h : ∀ s ∈ l, c ≤ g s) :
    l.foldl (fun acc s => min acc (g s)) c = c := by
  induction l with
  | nil => rfl
  | cons x xs ih =>
      simp only [List.foldl_cons]
      rw [min_eq_left (h x (List.mem_cons_self x xs))]
      exact ih fun s hs => h s (List.mem_cons_of_mem x hs)

lemma sqrt_sentinel : Real.sqrt (2 * z_inf * z_inf) = Real.sqrt 2 * z_inf := by
  rw [mul_assoc, Real.sqrt_mul (by norm_num)]
  rw [Real.sqrt_mul_self (by norm_num [z_inf])]

/-! ### Claim theorems -/

/-- Claim C10 (confirmed): the `Closest Ray` value printed by the script is
`np.min` of the zero-initialised grid, taken before the grid loop has
evaluated any cell, so it is `0` whatever values `md_eval` the subsequent
`minimum_distance` scan would produce. -/
theorem C10_closest_ray_always_zero (md_eval : Fin ny → Fin nx → ℝ) :
    closest_ray_printed md_eval = 0 := by
  unfold closest_ray_printed grid_min min_dist0
  apply Finset.inf'_const

/-- Claim C6 (confirmed): when the coordinate-time velocity `u` is timelike
for the metric `g`, the rescaled 4-momentum `p = u / sqrt(-(g u).u)`
satisfies the normalisation `g p . p = -1` exactly.  This is the rescaling
performed at `s2.py` lines 167-170, stated for an arbitrary metric matrix. -/
theorem C6_proper_time_normalisation (g : Matrix (Fin 4) (Fin 4) ℝ) (u : Fin 4 → ℝ)
    (h : qform g u < 0) : qform g (p_vec g u) = -1 := by
  have hpos : (0 : ℝ) < -qform g u := by linarith
  have hscale : qform g (p_vec g u) = dt_dtau g u ^ 2 * qform g u := by
    unfold p_vec
    show qform g (dt_dtau g u • u) = _
    unfold qform
    rw [Matrix.mulVec_smul, Matrix.smul_dotProduct, Matrix.dotProduct_smul,
      smul_eq_mul, smul_eq_mul]
    ring
  have hd : dt_dtau g u ^ 2 = 1 / (-qform g u) := by
    unfold dt_dtau
    rw [div_pow, one_pow, Real.sq_sqrt hpos.le]
  have hne : qform g u ≠ 0 := ne_of_lt h
  rw [hscale, hd]
  field_simp

/-- Witness for C6 at the Minkowski-like metric `diag(-1,1,1,1)` and the
unit time vector. -/
theorem C6_witness :
    qform !![-1, 0, 0, 0; 0, 1, 0, 0; 0, 0, 1, 0; 0, 0, 0, 1] ![1, 0, 0, 0] < 0 ∧
    qform !![-1, 0, 0, 0; 0, 1, 0, 0; 0, 0, 1, 0; 0, 0, 0, 1]
      (p_vec !![-1, 0, 0, 0; 0, 1, 0, 0; 0, 0, 1, 0; 0, 0, 0, 1] ![1, 0, 0, 0]) = -1 :=
  ⟨by norm_num [qform, Matrix.mulVec, Matrix.dotProduct, Fin.sum_univ_four],
   C6_proper_time_normalisation _ _
     (by norm_num [qform, Matrix.mulVec, Matrix.dotProduct, Fin.sum_univ_four])⟩

/-- Claim C4: with fewer than two detected maxima of `p_r`, the expression
`t[imaxs][1] - t[imaxs][0]` of `s2.py` line 218 has no value: the index-1
access into the list of maxima is out of bounds (`none` models the numpy
`IndexError`), so no orbital period is produced - and no `InsufficientExtrema`
error is reported anywhere in the code, contrary to the spec's requirement. -/
theorem C4_insufficient_maxima_oob (t pr : List ℝ) (h : (maxima pr).length < 2) :
    simul_period? t pr = none := by
  rcases hmax : maxima pr with _ | ⟨i0, _ | ⟨i1, l⟩⟩
  · simp [simul_period?, hmax]
  · simp [simul_period?, hmax]
  · rw [hmax] at h
    simp only [List.length_cons] at h
    omega

/-- Witness for C4: the trajectory `pr = [0, 1, 0]` has exactly one detected
apoapsis, and the period extraction aborts on the out-of-range access. -/
theorem C4_witness : simul_period? [0, 1, 2] [0, 1, 0] = none :=
  C4_insufficient_maxima_oob _ _ (by norm_num [maxima, maximaAux])

/-- Claim C2 (confirmed): with at least two detected maxima `i0, i1` of the
radial momentum, the analysis returns orbital period `t[i1] - t[i0]` and
precession phase `arctan2(y[i1], x[i1]) + pi` in orbital-plane coordinates
(`s2.py` lines 216-221). -/
theorem C2_period_and_precession (t pr : List ℝ) (orb : List (Fin 3 → ℝ))
    (i0 i1 : ℕ) (l : List ℕ) (hm : maxima pr = i0 :: i1 :: l)
    (h0 : i0 < t.length) (h1 : i1 < t.length) (h2 : i1 < orb.length) :
    simul_period? t pr = some (t.get ⟨i1, h1⟩ - t.get ⟨i0, h0⟩) ∧
    deltaphase? pr orb =
      some (arctan2 (orb.get ⟨i1, h2⟩ 1) (orb.get ⟨i1, h2⟩ 0) + Real.pi) := by
  constructor
  · simp [simul_period?, hm, List.getElem?_eq_getElem h0, List.getElem?_eq_getElem h1,
      List.get_eq_getElem]
  · simp [deltaphase?, hm, List.getElem?_eq_getElem h2, List.get_eq_getElem]

/-- Witness for C2 on a concrete five-sample trajectory with maxima at
indices 1 and 3. -/
theorem C2_witness :
    simul_period? [0, 10, 20, 30, 40] [0, 1, 0, 1, 0] = some 20 ∧
    deltaphase? [0, 1, 0, 1, 0]
      [![0, 0, 0], ![0, 0, 0], ![0, 0, 0], ![1, 2, 0], ![0, 0, 0]] =
      some (arctan2 2 1 + Real.pi) := by
  have hm : maxima [(0 : ℝ), 1, 0, 1, 0] = [1, 3] := by
    norm_num [maxima, maximaAux]
  have h := C2_period_and_precession [0, 10, 20, 30, 40] [0, 1, 0, 1, 0]
    [![0, 0, 0], ![0, 0, 0], ![0, 0, 0], ![1, 2, 0], ![0, 0, 0]] 1 3 [] hm
    (by norm_num) (by norm_num) (by norm_num)
  constructor
  · rw [h.1]
    norm_num [List.get]
  · rw [h.2]
    norm_num [List.get]

lemma dist_far_eval : dist_sqr_of 0 (fun _ => 0) farRay = 1000000 * 1000000 := by
  have hA : Real.sqrt ((1000000 : ℝ) * 1000000 + 0 * 0) = 1000000 := by
    rw [show ((1000000 : ℝ) * 1000000 + 0 * 0) = 1000000 * 1000000 by ring]
    exact Real.sqrt_mul_self (by norm_num)
  unfold dist_sqr_of bl_to_xyz farRay
  rw [obs_from_bh_eval]
  simp [Matrix.mulVec, Matrix.dotProduct, Fin.sum_univ_three, Matrix.vecHead,
    Matrix.vecTail, Real.sin_pi_div_two, Real.cos_pi_div_two, hA]

lemma sqrt2_z_lt_million : Real.sqrt 2 * z_inf < 1000000 := by
  have h2 : Real.sqrt 2 < 2 := by
    have h4 : Real.sqrt 4 = 2 := by
      rw [show (4 : ℝ) = 2 * 2 by norm_num]
      exact Real.sqrt_mul_self (by norm_num)
    have := Real.sqrt_lt_sqrt (by norm_num : (0 : ℝ) ≤ 2) (by norm_num : (2 : ℝ) < 4)
    rwa [h4] at this
  unfold z_inf
  nlinarith [Real.sqrt_nonneg 2]

/-- Claim C1 (corrected): `minimum_distance` does not return the plain
minimum distance over the sampled trajectory; because the running minimum
starts from the sentinel `2 * z_inf^2` (`s2.py` line 284), the return value
is the minimum of `sqrt 2 * z_inf` and the true minimum sampled distance. -/
theorem C1_min_distance_clamped (aa : ℝ) (pos : Fin 3 → ℝ) (s : Fin 5 → ℝ)
    (rest : List (Fin 5 → ℝ)) :
    minimum_distance_result aa pos (s :: rest) =
      min (Real.sqrt 2 * z_inf) (claimedMin aa pos (s :: rest)) := by
  have hm : Monotone Real.sqrt := fun x y h => Real.sqrt_le_sqrt h
  unfold minimum_distance_result
  rw [List.foldl_cons, foldl_min_sqrt, hm.map_min, sqrt_sentinel, foldl_min_init]
  rfl

/-- Counterexample to C1 as stated: for a sampled ray point at distance
`10^6` from the target, the function returns the sentinel `sqrt 2 * 10^5`
instead of the minimum sampled distance. -/
theorem C1_counterexample :
    minimum_distance_result 0 (fun _ => 0) [farRay] ≠
      claimedMin 0 (fun _ => 0) [farRay] := by
  have hres : minimum_distance_result 0 (fun _ => 0) [farRay] = Real.sqrt 2 * z_inf := by
    unfold minimum_distance_result
    simp only [List.foldl_cons, List.foldl_nil]
    rw [dist_far_eval, min_eq_left (by norm_num [z_inf]), sqrt_sentinel]
  have hcl : claimedMin 0 (fun _ => 0) [farRay] = 1000000 := by
    show Real.sqrt (dist_sqr_of 0 (fun _ => 0) farRay) = 1000000
    rw [dist_far_eval]
    exact Real.sqrt_mul_self (by norm_num)
  rw [hres, hcl]
  exact ne_of_lt sqrt2_z_lt_million

/-- Claim C9 (confirmed): the result of `minimum_distance` never exceeds
`sqrt 2 * 100000`, and whenever every sampled point lies farther than
`sqrt 2 * z_inf` from the target the sentinel value `sqrt 2 * z_inf` is
returned instead of the true minimum distance. -/
theorem C9_sentinel_clamp (aa : ℝ) (pos : Fin 3 → ℝ) (ray : List (Fin 5 → ℝ)) :
    minimum_distance_result aa pos ray ≤ Real.sqrt 2 * z_inf ∧
    ((∀ s ∈ ray, Real.sqrt 2 * z_inf < Real.sqrt (dist_sqr_of aa pos s)) →
      minimum_distance_result aa pos ray = Real.sqrt 2 * z_inf) := by
  constructor
  · unfold minimum_distance_result
    rw [← sqrt_sentinel]
    exact Real.sqrt_le_sqrt (foldl_min_le_init _ _ _)
  · intro hfar
    have hge : ∀ s ∈ ray, 2 * z_inf * z_inf ≤ dist_sqr_of aa pos s := by
      intro s hs
      by_contra hlt
      push_neg at hlt
      have h2 := Real.sqrt_le_sqrt hlt.le
      rw [sqrt_sentinel] at h2
      exact absurd (hfar s hs) (not_lt.mpr h2)
    unfold minimum_distance_result
    rw [foldl_min_of_ge _ _ _ hge, sqrt_sentinel]

/-- Witness for C9: a single sampled ray point at distance `10^6 > sqrt 2
* z_inf` from the target makes the function return the sentinel. -/
theorem C9_witness :
    minimum_distance_result 0 (fun _ => 0) [farRay] = Real.sqrt 2 * z_inf := by
  apply (C9_sentinel_clamp 0 (fun _ => 0) [farRay]).2
  intro s hs
  rw [List.mem_singleton] at hs
  subst hs
  rw [dist_far_eval, Real.sqrt_mul_self (by norm_num : (0 : ℝ) ≤ 1000000)]
  exact sqrt2_z_lt_million

/-- Claim C3: at the sky offset `(0, 0)` the ray points along the spin axis,
the direction-to-momentum matrix of `minimum_distance` is exactly singular,
`np.linalg.solve` fails - and the `except` branch of `s2.py` lines 259-262
merely prints the matrix, after which execution continues with the all-zero
spatial momentum `_p[1:4] = 0`.  The failure is not surfaced to the caller,
contrary to the claim. -/
theorem C3_singular_solve_not_surfaced :
    (md_mat_at a 0 0).det = 0 ∧
    np_solve (md_mat_at a 0 0) md_v0 = none ∧
    md_p_spatial a 0 0 = 0 := by
  have hx : md_xyz0 0 0 = ![0, 0, -z_inf] := by
    unfold md_xyz0
    rw [bh_from_obs_eval]
    funext i
    fin_cases i <;>
      simp [Matrix.mulVec, Matrix.dotProduct, Fin.sum_univ_three, Matrix.vecHead,
        Matrix.vecTail]
  have hdet : (md_mat_at a 0 0).det = 0 := by
    unfold md_mat_at
    rw [hx]
    simp [md_mat, Matrix.det_fin_three, Matrix.vecHead, Matrix.vecTail]
  refine ⟨hdet, ?_, ?_⟩
  · unfold np_solve
    rw [if_pos hdet]
  · unfold md_p_spatial np_solve
    rw [if_pos hdet]
    rfl

lemma md_xyz0_eval (x y : ℝ) : md_xyz0 x y = ![-x, y, -z_inf] := by
  unfold md_xyz0
  rw [bh_from_obs_eval]
  funext i
  fin_cases i <;>
    simp [Matrix.mulVec, Matrix.dotProduct, Fin.sum_univ_three, Matrix.vecHead,
      Matrix.vecTail]

lemma md_v0_eval : md_v0 = ![0, 0, -1] := by
  unfold md_v0
  rw [bh_from_obs_eval]
  funext i
  fin_cases i <;>
    simp [Matrix.mulVec, Matrix.dotProduct, Fin.sum_univ_three, Matrix.vecHead,
      Matrix.vecTail]

lemma md_mat_det_zero_axis (aa r0 th0 z0 : ℝ) : (md_mat aa r0 th0 0 0 z0).det = 0 := by
  simp [md_mat, Matrix.det_fin_three, Matrix.vecHead, Matrix.vecTail]

lemma r_of_start_ge_three (aa x y : ℝ) (ha : |aa| ≤ 1) :
    3 ≤ r_of_xyz aa (-x) y (-z_inf) := by
  have haa : aa * aa ≤ 1 := by
    rcases abs_le.mp ha with ⟨h1, h2⟩
    nlinarith
  have hA : a_xyz aa (-x) y (-z_inf) ≤ 1 - 10000000000 := by
    unfold a_xyz z_inf
    nlinarith [mul_self_nonneg x, mul_self_nonneg y]
  have h4z : (0 : ℝ) ≤ 4 * aa * aa * -z_inf * -z_inf := by
    nlinarith [mul_self_nonneg (aa * z_inf)]
  have hAneg : a_xyz aa (-x) y (-z_inf) ≤ 0 := by linarith
  have hsqA : Real.sqrt (a_xyz aa (-x) y (-z_inf) * a_xyz aa (-x) y (-z_inf))
      = -a_xyz aa (-x) y (-z_inf) := by
    rw [Real.sqrt_mul_self_eq_abs, abs_of_nonpos hAneg]
  have hmono : Real.sqrt (a_xyz aa (-x) y (-z_inf) * a_xyz aa (-x) y (-z_inf)) ≤
      Real.sqrt (a_xyz aa (-x) y (-z_inf) * a_xyz aa (-x) y (-z_inf) +
        4 * aa * aa * -z_inf * -z_inf) :=
    Real.sqrt_le_sqrt (by linarith)
  have hinner : (9 : ℝ) ≤ -0.5 * a_xyz aa (-x) y (-z_inf) +
      0.5 * Real.sqrt (a_xyz aa (-x) y (-z_inf) * a_xyz aa (-x) y (-z_inf) +
        4 * aa * aa * -z_inf * -z_inf) := by
    linarith
  have h9 : Real.sqrt 9 = 3 := by
    rw [show (9 : ℝ) = 3 * 3 by norm_num]
    exact Real.sqrt_mul_self (by norm_num)
  unfold r_of_xyz
  calc (3 : ℝ) = Real.sqrt 9 := h9.symm
    _ ≤ _ := Real.sqrt_le_sqrt hinner

lemma metric_l_tt_ne_zero (aa r th : ℝ) (hr : 3 ≤ r) : metric_l aa r th 0 0 ≠ 0 := by
  have hent : metric_l aa r th 0 0 = -(1 - 2 * r / kerr_Sigma aa r th) := by
    simp [metric_l]
  have hSig : r * r ≤ kerr_Sigma aa r th := by
    unfold kerr_Sigma
    nlinarith [mul_self_nonneg (aa * Real.cos th)]
  have hSigpos : 0 < kerr_Sigma aa r th := by nlinarith
  have h2r : 2 * r < kerr_Sigma aa r th := by nlinarith
  have hdiv : 2 * r / kerr_Sigma aa r th < 1 := (div_lt_one hSigpos).mpr h2r
  rw [hent]
  intro hzero
  rw [neg_eq_zero] at hzero
  linarith

/-- Claim C8 (confirmed): every initial light ray constructed by
`minimum_distance` with a nondegenerate direction matrix has conserved
photon energy `E = -p_t` exactly 1.  All rays are aimed along
`_v0 = bh_from_obs @ [0, 0, 1]` (`s2.py` line 245), whose black-hole-frame
x and y components vanish; combining rows 0 and 1 of the linear solve as
`x0 * row1 - y0 * row0` forces `(x0^2 + y0^2) * dphi = 0`, so the solved
phi velocity is exactly zero whenever the matrix is nonsingular.  The
covariant energy `-(metric0 @ _p)[0]` then equals 1 exactly: the `_p[2] *
metric0[0,2]` contraction at line 265 multiplies the identically-zero Kerr
`g_t_theta` entry, and the `g_t_phi * p^phi` term vanishes with `p^phi`. -/
theorem C8_photon_energy_one (aa x y : ℝ) (ha : |aa| ≤ 1)
    (hdet : (md_mat_at aa x y).det ≠ 0) :
    md_E (metric_l aa (xyz_to_bl aa (md_xyz0 x y) 0) (xyz_to_bl aa (md_xyz0 x y) 1))
      (md_p_spatial aa x y) = 1 := by
  have hsolve : md_p_spatial aa x y = (md_mat_at aa x y)⁻¹.mulVec md_v0 := by
    unfold md_p_spatial np_solve
    rw [if_neg hdet]
    rfl
  have hMv : (md_mat_at aa x y).mulVec (md_p_spatial aa x y) = md_v0 := by
    rw [hsolve, Matrix.mulVec_mulVec,
      Matrix.mul_nonsing_inv _ (isUnit_iff_ne_zero.mpr hdet), Matrix.one_mulVec]
  have h0 := congrFun hMv 0
  have h1 := congrFun hMv 1
  rw [md_v0_eval] at h0 h1
  simp [md_mat_at, md_mat, Matrix.mulVec, Matrix.dotProduct, Fin.sum_univ_three,
    Matrix.vecHead, Matrix.vecTail] at h0 h1
  have hp2 : (md_xyz0 x y 0 * md_xyz0 x y 0 + md_xyz0 x y 1 * md_xyz0 x y 1) *
      md_p_spatial aa x y 2 = 0 := by
    linear_combination md_xyz0 x y 0 * h1 - md_xyz0 x y 1 * h0
  have hXY : md_xyz0 x y 0 * md_xyz0 x y 0 + md_xyz0 x y 1 * md_xyz0 x y 1 ≠ 0 := by
    intro hzero
    have hX : md_xyz0 x y 0 = 0 := by
      nlinarith [mul_self_nonneg (md_xyz0 x y 0), mul_self_nonneg (md_xyz0 x y 1)]
    have hY : md_xyz0 x y 1 = 0 := by
      nlinarith [mul_self_nonneg (md_xyz0 x y 0), mul_self_nonneg (md_xyz0 x y 1)]
    apply hdet
    unfold md_mat_at
    rw [hX, hY]
    exact md_mat_det_zero_axis aa _ _ _
  have hpsp2 : md_p_spatial aa x y 2 = 0 := by
    rcases mul_eq_zero.mp hp2 with h | h
    · exact absurd h hXY
    · exact h
  have hr3 : 3 ≤ xyz_to_bl aa (md_xyz0 x y) 0 := by
    rw [md_xyz0_eval]
    simp only [xyz_to_bl, Matrix.cons_val_zero, Matrix.cons_val_one, Matrix.head_cons,
      Matrix.vecHead, Matrix.vecTail]
    exact r_of_start_ge_three aa x y ha
  have hg := metric_l_tt_ne_zero aa (xyz_to_bl aa (md_xyz0 x y) 0)
    (xyz_to_bl aa (md_xyz0 x y) 1) hr3
  have hG1 : metric_l aa (xyz_to_bl aa (md_xyz0 x y) 0)
      (xyz_to_bl aa (md_xyz0 x y) 1) 0 1 = 0 := by
    simp [metric_l]
  have hG2 : metric_l aa (xyz_to_bl aa (md_xyz0 x y) 0)
      (xyz_to_bl aa (md_xyz0 x y) 1) 0 2 = 0 := by
    simp [metric_l]
  unfold md_E md_p_full
  simp [Matrix.mulVec, Matrix.dotProduct, Fin.sum_univ_four, Matrix.vecHead,
    Matrix.vecTail, hG1, hG2, hpsp2]
  field_simp

lemma w8_xyz : md_xyz0 0 75000 = ![0, 75000, -100000] := by
  rw [md_xyz0_eval]
  funext i
  fin_cases i <;> simp [z_inf, Matrix.vecHead, Matrix.vecTail]

lemma w8_r : r_of_xyz 0 0 75000 (-100000) = 125000 := by
  have hA : a_xyz 0 0 75000 (-100000) = -15625000000 := by
    unfold a_xyz
    norm_num
  unfold r_of_xyz
  rw [hA]
  rw [show ((-15625000000 : ℝ) * -15625000000 + 4 * 0 * 0 * -100000 * -100000)
      = 15625000000 * 15625000000 by norm_num]
  rw [Real.sqrt_mul_self (by norm_num : (0 : ℝ) ≤ 15625000000)]
  rw [show (-0.5 * (-15625000000 : ℝ) + 0.5 * 15625000000) = 125000 * 125000 by norm_num]
  exact Real.sqrt_mul_self (by norm_num)

lemma w8_th : theta_of_xyz 0 0 75000 (-100000) = Real.arccos (-(4 / 5)) := by
  unfold theta_of_xyz
  rw [w8_r]
  norm_num

lemma w8_sin : Real.sin (Real.arccos (-(4 / 5))) = 3 / 5 := by
  rw [Real.sin_arccos]
  rw [show (1 : ℝ) - (-(4 / 5)) ^ 2 = (3 / 5) ^ 2 by norm_num]
  rw [Real.sqrt_sq (by norm_num : (0 : ℝ) ≤ 3 / 5)]

lemma w8_tan : Real.tan (Real.arccos (-(4 / 5)) - Real.pi / 2) = 4 / 3 := by
  rw [show Real.arccos (-(4 / 5)) - Real.pi / 2
      = -(Real.pi / 2 - Real.arccos (-(4 / 5))) by ring]
  rw [Real.tan_neg, Real.tan_pi_div_two_sub]
  rw [Real.tan_eq_sin_div_cos, w8_sin, Real.cos_arccos (by norm_num) (by norm_num)]
  norm_num

lemma w8_det : (md_mat_at 0 0 75000).det ≠ 0 := by
  have hr : xyz_to_bl 0 (md_xyz0 0 75000) 0 = 125000 := by
    rw [w8_xyz]
    simp [xyz_to_bl, Matrix.vecHead, Matrix.vecTail, w8_r]
  have hth : xyz_to_bl 0 (md_xyz0 0 75000) 1 = Real.arccos (-(4 / 5)) := by
    rw [w8_xyz]
    simp [xyz_to_bl, Matrix.vecHead, Matrix.vecTail, w8_th]
  unfold md_mat_at
  rw [hr, hth, w8_xyz]
  simp [md_mat, Matrix.det_fin_three, Matrix.vecHead, Matrix.vecTail, w8_tan, w8_sin]
  norm_num

/-- Witness for C8 at spin 0 and sky offset (0, 75000): the start point is
the Pythagorean triple (0, 75000, -100000), the direction matrix is
explicitly nonsingular, and the constructed ray's energy is exactly 1. -/
theorem C8_witness :
    md_E (metric_l 0 (xyz_to_bl 0 (md_xyz0 0 75000) 0) (xyz_to_bl 0 (md_xyz0 0 75000) 1))
      (md_p_spatial 0 0 75000) = 1 :=
  C8_photon_energy_one 0 0 75000 (by norm_num) w8_det

/-- Claim C7 (corrected): the extracted semi-major axis is half the signed
difference of the first (x) orbital-plane coordinates at the first minimum
and first maximum of `p_r` (`s2.py` line 219) - not half the Euclidean
distance between the two positions. -/
theorem C7_sma_x_coordinate_difference (pr : List ℝ) (orb : List (Fin 3 → ℝ))
    (i j : ℕ) (lm lM : List ℕ) (hmin : minima pr = i :: lm)
    (hmax : maxima pr = j :: lM) (hi : i < orb.length) (hj : j < orb.length) :
    simul_sma? pr orb = some ((orb.get ⟨i, hi⟩ 0 - orb.get ⟨j, hj⟩ 0) / 2) := by
  simp [simul_sma?, hmin, hmax, List.getElem?_eq_getElem hi,
    List.getElem?_eq_getElem hj, List.get_eq_getElem]

/-- Witness for C7 on a concrete trajectory with first periapsis at index 1
and first apoapsis at index 2. -/
theorem C7_witness :
    simul_sma? [1, 0, 1, 0, 1]
      [![9, 9, 9], ![1, 4, 0], ![1, 0, 0], ![9, 9, 9], ![9, 9, 9]] = some 0 := by
  have h := C7_sma_x_coordinate_difference [1, 0, 1, 0, 1]
    [![9, 9, 9], ![1, 4, 0], ![1, 0, 0], ![9, 9, 9], ![9, 9, 9]] 1 2 [3] []
    (by norm_num [minima, minimaAux]) (by norm_num [maxima, maximaAux])
    (by norm_num) (by norm_num)
  rw [h]
  norm_num [List.get]

/-- Counterexample to C7 as stated: at the same concrete trajectory the
periapsis and apoapsis positions differ in the y coordinate, so half their
Euclidean distance is `2` while the code computes `0`. -/
theorem C7_counterexample :
    simul_sma? [1, 0, 1, 0, 1]
      [![9, 9, 9], ![1, 4, 0], ![1, 0, 0], ![9, 9, 9], ![9, 9, 9]] ≠
    half_peri_apo_dist? [1, 0, 1, 0, 1]
      [![9, 9, 9], ![1, 4, 0], ![1, 0, 0], ![9, 9, 9], ![9, 9, 9]] := by
  have hmin : minima [(1 : ℝ), 0, 1, 0, 1] = [1, 3] := by
    norm_num [minima, minimaAux]
  have hmax : maxima [(1 : ℝ), 0, 1, 0, 1] = [2] := by
    norm_num [maxima, maximaAux]
  have h1 : simul_sma? [(1 : ℝ), 0, 1, 0, 1]
      [![9, 9, 9], ![1, 4, 0], ![1, 0, 0], ![9, 9, 9], ![9, 9, 9]] = some 0 := by
    simp [simul_sma?, hmin, hmax]
  have h2 : half_peri_apo_dist? [(1 : ℝ), 0, 1, 0, 1]
      [![9, 9, 9], ![1, 4, 0], ![1, 0, 0], ![9, 9, 9], ![9, 9, 9]] = some 2 := by
    simp [half_peri_apo_dist?, hmin, hmax]
    norm_num
  rw [h1, h2]
  simp

lemma arctan2_scaled (S ph : ℝ) (hS : 0 < S) :
    ∃ k : ℤ, arctan2 (S * Real.sin ph) (S * Real.cos ph) = ph + 2 * Real.pi * k := by
  refine ⟨⌊(Real.pi - ph) / (2 * Real.pi)⌋, ?_⟩
  have h := Complex.arg_mul_cos_add_sin_mul_I_sub hS ph
  have harg : arctan2 (S * Real.sin ph) (S * Real.cos ph)
      = Complex.arg (S * (Complex.cos ph + Complex.sin ph * Complex.I)) := by
    unfold arctan2
    congr 1
    push_cast
    ring
  rw [harg]
  linarith [h]

/-- Claim C5 (confirmed): for r above the horizon radius and theta strictly
inside (0, pi), converting Boyer-Lindquist coordinates to Cartesian
(`s2.py` lines 143-145) and back with the inverse formulas (`s2.py` lines
135-140) recovers (r, theta) exactly and phi up to an integer multiple of
2 pi. -/
theorem C5_bl_roundtrip (aa r th ph : ℝ) (ha : |aa| ≤ 1)
    (hr : 1 + Real.sqrt (1 - aa * aa) < r) (hth0 : 0 < th) (hthpi : th < Real.pi) :
    ∃ k : ℤ, xyz_to_bl aa (bl_to_xyz aa r th ph) = ![r, th, ph + 2 * Real.pi * k] := by
  have hr0 : 0 < r := by
    have h1 : (0 : ℝ) ≤ Real.sqrt (1 - aa * aa) := Real.sqrt_nonneg _
    linarith
  have hra : (0 : ℝ) < r * r + aa * aa := by
    nlinarith [mul_self_nonneg aa, mul_pos hr0 hr0]
  have hs : Real.sqrt (r * r + aa * aa) * Real.sqrt (r * r + aa * aa) = r * r + aa * aa :=
    Real.mul_self_sqrt hra.le
  have hsin : 0 < Real.sin th := Real.sin_pos_of_pos_of_lt_pi hth0 hthpi
  have hph2 : Real.cos ph * Real.cos ph + Real.sin ph * Real.sin ph = 1 := by
    linear_combination Real.sin_sq_add_cos_sq ph
  have hth2 : Real.sin th * Real.sin th + Real.cos th * Real.cos th = 1 := by
    linear_combination Real.sin_sq_add_cos_sq th
  -- the Cartesian image of (r, th, ph)
  have haxyz : a_xyz aa (Real.sqrt (r * r + aa * aa) * Real.sin th * Real.cos ph)
      (Real.sqrt (r * r + aa * aa) * Real.sin th * Real.sin ph) (r * Real.cos th)
      = aa * aa * (Real.cos th * Real.cos th) - r * r := by
    unfold a_xyz
    linear_combination
      (-(Real.sin th * Real.sin th) *
        (Real.cos ph * Real.cos ph + Real.sin ph * Real.sin ph)) * hs +
      (-(Real.sin th * Real.sin th) * (r * r + aa * aa)) * hph2 +
      (-(aa * aa + r * r)) * hth2
  have hInnerSqrt : Real.sqrt (a_xyz aa
        (Real.sqrt (r * r + aa * aa) * Real.sin th * Real.cos ph)
        (Real.sqrt (r * r + aa * aa) * Real.sin th * Real.sin ph) (r * Real.cos th) *
      a_xyz aa (Real.sqrt (r * r + aa * aa) * Real.sin th * Real.cos ph)
        (Real.sqrt (r * r + aa * aa) * Real.sin th * Real.sin ph) (r * Real.cos th) +
      4 * aa * aa * (r * Real.cos th) * (r * Real.cos th))
      = aa * aa * (Real.cos th * Real.cos th) + r * r := by
    rw [haxyz]
    rw [show (aa * aa * (Real.cos th * Real.cos th) - r * r) *
          (aa * aa * (Real.cos th * Real.cos th) - r * r) +
          4 * aa * aa * (r * Real.cos th) * (r * Real.cos th)
        = (aa * aa * (Real.cos th * Real.cos th) + r * r) *
          (aa * aa * (Real.cos th * Real.cos th) + r * r) by ring]
    exact Real.sqrt_mul_self
      (by nlinarith [mul_self_nonneg (aa * Real.cos th), mul_self_nonneg r])
  have hrof : r_of_xyz aa (Real.sqrt (r * r + aa * aa) * Real.sin th * Real.cos ph)
      (Real.sqrt (r * r + aa * aa) * Real.sin th * Real.sin ph) (r * Real.cos th) = r := by
    unfold r_of_xyz
    rw [hInnerSqrt, haxyz]
    rw [show -0.5 * (aa * aa * (Real.cos th * Real.cos th) - r * r) +
          0.5 * (aa * aa * (Real.cos th * Real.cos th) + r * r) = r * r by ring]
    exact Real.sqrt_mul_self hr0.le
  have hthof : theta_of_xyz aa (Real.sqrt (r * r + aa * aa) * Real.sin th * Real.cos ph)
      (Real.sqrt (r * r + aa * aa) * Real.sin th * Real.sin ph) (r * Real.cos th) = th := by
    unfold theta_of_xyz
    rw [hrof]
    rw [show r * Real.cos th / r = Real.cos th by field_simp]
    exact Real.arccos_cos hth0.le hthpi.le
  have hQs : 0 < Real.sqrt (r * r + aa * aa) * Real.sin th :=
    mul_pos (Real.sqrt_pos.mpr hra) hsin
  obtain ⟨k, hk⟩ := arctan2_scaled (Real.sqrt (r * r + aa * aa) * Real.sin th) ph hQs
  refine ⟨k, ?_⟩
  funext i
  fin_cases i
  · simpa [xyz_to_bl, bl_to_xyz] using hrof
  · simpa [xyz_to_bl, bl_to_xyz] using hthof
  · simpa [xyz_to_bl, bl_to_xyz, mul_assoc] using hk

/-- Witness for C5 at `a = 0`, `r = 3`, `theta = pi/2`, `phi = 0`. -/
theorem C5_witness :
    ∃ k : ℤ, xyz_to_bl 0 (bl_to_xyz 0 3 (Real.pi / 2) 0)
      = ![3, Real.pi / 2, 0 + 2 * Real.pi * k] :=
  C5_bl_roundtrip 0 3 (Real.pi / 2) 0 (by norm_num)
    (by rw [show (1 : ℝ) - 0 * 0 = 1 by ring, Real.sqrt_one]; norm_num)
    (by positivity) (by linarith [Real.pi_pos])

end S2
